import Mathlib

/-!
# Water Quality Monitor — verification of the signal/calibration pipeline

Shallow embedding of the firmware in
`src/firmware/water_quality_monitorcode.ino` (the Arduino Uno R4 variant)
and, where a claim touches it, of the simpler variant in
`src/unnamed/part_000`.

Modelling conventions:
* C unsigned integers (`uint16_t`, `uint32_t`) are embedded as `ℕ`, with an
  explicit `% 2^w` wherever the C code truncates; `int`/`long` values are `ℤ`,
  and C integer division (truncation toward zero) is `Int.tdiv`.
* `float` arithmetic is embedded as exact rational arithmetic on `ℚ`; a C
  cast `(int)x` of a nonnegative float is `⌊x⌋`.  The one place where the C
  code can divide a float by zero (an operation with no defined integer
  result after the cast) is embedded as an `Option` returning `none` there.
* Environmental inputs (`analogRead`, `millis`, the debounced long-press
  event) become explicit parameters; file-scope mutable state becomes
  explicit state values passed and returned.
-/

/-! ## Calibration storage (`CalData`, `checksum16`, load/save) -/

/-- `struct CalData { uint32_t magic; uint16_t clearRaw; uint16_t cloudyRaw;
uint16_t crc; }` — field widths noted, values embedded as `ℕ`. -/
structure CalData where
  magic : ℕ
  clearRaw : ℕ
  cloudyRaw : ℕ
  crc : ℕ
deriving DecidableEq

/-- `CAL_MAGIC = 0x54555242` (the signature constant `'TURB'`). -/
def CAL_MAGIC : ℕ := 0x54555242

/-- `checksum16`: adds the two 16-bit halves of `magic` and the two raw
values into a `uint32_t` accumulator (no overflow: the four summands are
below `2^16`), then truncates to 16 bits.  The `crc` field is not read. -/
def checksum16 (d : CalData) : ℕ :=
  (d.magic % 65536 + (d.magic / 65536) % 65536 + d.clearRaw + d.cloudyRaw) % 65536

/-- `loadCalibration`: validates the record read from EEPROM and returns the
resulting `calLoaded` flag.  The stored byte pattern is the `CalData`
argument; the three checks are performed in the source's order and every
failure is an ordinary `false` result (no abort path exists). -/
def loadCalibration (d : CalData) : Bool :=
  if d.magic ≠ CAL_MAGIC then false
  else if d.crc ≠ checksum16 d then false
  else if d.clearRaw = d.cloudyRaw then false
  else true

/-- `saveCalibration(clearRaw, cloudyRaw)`: fills `magic`, the two raw
values, then `crc := checksum16(cal)`; returns the written record together
with the new `calLoaded` flag (the C code sets `calLoaded = true`).
`checksum16` never reads `crc`, so computing it over a record whose `crc`
placeholder is `0` matches the C in-place field-by-field assignment. -/
def saveCalibration (clearRaw cloudyRaw : ℕ) : CalData × Bool :=
  let d0 : CalData := { magic := CAL_MAGIC, clearRaw := clearRaw,
                        cloudyRaw := cloudyRaw, crc := 0 }
  ({ d0 with crc := checksum16 d0 }, true)

/-- The CalibrationRecord invariant of the spec: signature is the expected
constant, checksum is the deterministic function of the other fields, and
the two references differ. -/
def calInvariant (d : CalData) : Prop :=
  d.magic = CAL_MAGIC ∧ d.crc = checksum16 d ∧ d.clearRaw ≠ d.cloudyRaw

instance (d : CalData) : Decidable (calInvariant d) := by
  unfold calInvariant; infer_instance

/-! ## Sampler (`insertionSort`, `readTurbidityMedian`) -/

/-- `MEDIAN_SAMPLE_COUNT = 31` (odd, so the median is well defined). -/
def MEDIAN_SAMPLE_COUNT : ℕ := 31

/-- One step of the firmware's insertion sort: the inner `while (j >= 0 &&
arr[j] > key)` loop shifts the strictly greater elements right, so `key`
lands before the first element strictly greater than it (after any equal
elements). -/
def insertS (key : ℕ) : List ℕ → List ℕ
  | [] => [key]
  | b :: l => if b > key then key :: b :: l else b :: insertS key l

/-- `insertionSort(arr, n)`: the outer `for` loop grows a sorted prefix by
inserting each element in turn; embedded as a left fold over the sample
list. -/
def insertionSort (l : List ℕ) : List ℕ :=
  l.foldl (fun acc x => insertS x acc) []

/-- `readTurbidityMedian`: sorts the burst of samples and returns the middle
element `samples[n / 2]`.  The burst (the successive `analogRead` results)
is the explicit `samples` argument; the firmware always passes a burst of
`MEDIAN_SAMPLE_COUNT = 31` samples. -/
def readTurbidityMedian (samples : List ℕ) : ℕ :=
  (insertionSort samples).getD (samples.length / 2) 0

/-- Reference definition for the claims (spec: "verify against a reference
sort"): the true median of a sample multiset is the middle element of a
reference-sorted copy, here Mathlib's `List.insertionSort`. -/
def medianSpec (l : List ℕ) : ℕ :=
  (List.insertionSort (· ≤ ·) l).getD (l.length / 2) 0

/-! ## Smoother (EMA step of `loop`) -/

/-- `EMA_ALPHA = 0.20f`, embedded as the exact rational `1/5`. -/
def EMA_ALPHA : ℚ := 1/5

/-- One iteration of the smoothing code in `loop`:
`if (emaRaw < 0.0f) emaRaw = rawMedian;` followed by
`emaRaw = EMA_ALPHA * rawMedian + (1.0f - EMA_ALPHA) * emaRaw;`.
The state is the file-scope `emaRaw` (initially the sentinel `-1.0f`). -/
def emaStep (emaRaw : ℚ) (rawMedian : ℕ) : ℚ :=
  let e := if emaRaw < 0 then (rawMedian : ℚ) else emaRaw
  EMA_ALPHA * (rawMedian : ℚ) + (1 - EMA_ALPHA) * e

/-! ## Index Mapper (`computeTurbidityIndex`) -/

/-- Shared tail of the calibrated branch: clamp `t` to `[0,1]`, then
`(int)(t * 100.0f + 0.5f)` (the operand is nonnegative after the clamp, so
the truncating cast is the floor), then the final two integer clamps. -/
def indexFromT (t : ℚ) : ℤ :=
  let t1 := if t < 0 then 0 else t
  let t2 := if t1 > 1 then 1 else t1
  let idx : ℤ := ⌊t2 * 100 + 1/2⌋
  let idx1 := if idx < 0 then 0 else idx
  if idx1 > 100 then 100 else idx1

/-- `computeTurbidityIndex(raw)` of the main firmware.  The file-scope
`calLoaded` and `cal` are explicit arguments.  Uncalibrated branch:
`map(raw, 0, 4095, 100, 0)` (Arduino `map` is
`(x - in_min) * (out_max - out_min) / (in_max - in_min) + out_min` in C
`long` arithmetic, hence `Int.tdiv`) followed by the two clamps.
Calibrated branch: pick the direction by comparing the two references and
divide by their difference.  When `cloudyV > clearV` the divisor is
strictly positive; in the `else` branch the C code divides by
`clearV - cloudyV` even when it is `0.0f` — a float division by zero whose
subsequent `(int)` cast has no defined result, embedded as `none`. -/
def computeTurbidityIndex (calLoaded : Bool) (cal : CalData) (raw : ℕ) : Option ℤ :=
  if calLoaded = false then
    let idx : ℤ := Int.tdiv (((raw : ℤ) - 0) * (0 - 100)) (4095 - 0) + 100
    let idx1 := if idx < 0 then 0 else idx
    some (if idx1 > 100 then 100 else idx1)
  else
    let clearV : ℚ := (cal.clearRaw : ℚ)
    let cloudyV : ℚ := (cal.cloudyRaw : ℚ)
    if cloudyV > clearV then
      some (indexFromT (((raw : ℚ) - clearV) / (cloudyV - clearV)))
    else if clearV - cloudyV = 0 then
      none
    else
      some (indexFromT ((clearV - (raw : ℚ)) / (clearV - cloudyV)))

/-! ## Index Mapper of the simpler variant (`src/unnamed/part_000`) -/

namespace Variant

/-- Arduino `round`: half away from zero, then a truncating `long` cast. -/
def roundHalfAway (q : ℚ) : ℤ :=
  if 0 ≤ q then ⌊q + 1/2⌋ else ⌈q - 1/2⌉

/-- `computeTurbidityIndex(raw)` of `src/unnamed/part_000`.  The file's
globals `clearRaw` and `dirtyRaw` (initialised to 900 and 300 in the
source) are the first two arguments.  This variant guards the degenerate
case: `if (abs(maxVal - minVal) < 1) return 0;`. -/
def computeTurbidityIndex (clearRaw dirtyRaw : ℤ) (raw : ℚ) : ℤ :=
  let minVal := min clearRaw dirtyRaw
  let maxVal := max clearRaw dirtyRaw
  if |maxVal - minVal| < 1 then 0
  else
    let normalized : ℚ := (raw - (minVal : ℚ)) / ((maxVal : ℚ) - (minVal : ℚ))
    let clearIsHigh := clearRaw > dirtyRaw
    let turbidity : ℚ := if clearIsHigh then 1 - normalized else normalized
    min 100 (max 0 (roundHalfAway (turbidity * 100)))

end Variant

/-! ## Classifier (`classifyStatus`) -/

/-- `THRESH_CLEAR = 30`. -/
def THRESH_CLEAR : ℤ := 30

/-- `THRESH_MODERATE = 70`. -/
def THRESH_MODERATE : ℤ := 70

/-- `classifyStatus(idx)`: two-threshold classification into the status
strings the firmware prints. -/
def classifyStatus (idx : ℤ) : String :=
  if idx < THRESH_CLEAR then "CLEAR"
  else if idx < THRESH_MODERATE then "MODERATE"
  else "TURBID"

/-! ## LED routine (`updateLed`) -/

/-- `STATUS_LED_PIN = 8`: the pin `setup` configures as an output. -/
def STATUS_LED_PIN : ℕ := 8

/-- `PIN_LED`: the Arduino core's constant for the board's built-in LED pin
(D13 on the Uno R4 WiFi); it is this name, not `STATUS_LED_PIN`, that
`updateLed` passes to `digitalWrite`. -/
def PIN_LED : ℕ := 13

/-- The `static` locals of `updateLed`. -/
structure LedState where
  lastToggle : ℕ
  ledState : Bool
deriving DecidableEq

/-- `updateLed(idx)`: returns the updated static state together with the
list of `digitalWrite(pin, level)` calls the invocation performs.  `now` is
the `millis()` reading; `now - lastToggle` is `uint32_t` subtraction,
embedded as `(now + 2^32 - lastToggle) % 2^32` on the `uint32_t` domain. -/
def updateLed (idx : ℤ) (now : ℕ) (st : LedState) : LedState × List (ℕ × Bool) :=
  if idx < THRESH_CLEAR then
    (st, [(PIN_LED, false)])
  else if idx < THRESH_MODERATE then
    if (now + 2 ^ 32 - st.lastToggle) % 2 ^ 32 ≥ 700 then
      let b := !st.ledState
      ({ lastToggle := now, ledState := b }, [(PIN_LED, b)])
    else
      (st, [])
  else
    (st, [(PIN_LED, true)])

/-! ## Calibration flow (the calibration part of `loop`) -/

/-- `enum CalStage { CAL_NONE, CAL_WAIT_CLEAR, CAL_WAIT_CLOUDY, CAL_DONE }`. -/
inductive CalStage where
  | CAL_NONE
  | CAL_WAIT_CLEAR
  | CAL_WAIT_CLOUDY
  | CAL_DONE
deriving DecidableEq

export CalStage (CAL_NONE CAL_WAIT_CLEAR CAL_WAIT_CLOUDY CAL_DONE)

/-- The file-scope state the calibration flow reads and writes: the RAM
record `cal`, the `calLoaded` flag, the stage, and the EEPROM contents
(`EEPROM.put` in `saveCalibration` is the only writer). -/
structure SysState where
  cal : CalData
  calLoaded : Bool
  calStage : CalStage
  eeprom : CalData
deriving DecidableEq

/-- Steps 1–2 of one `loop` iteration (the calibration flow): force
`CAL_WAIT_CLEAR` when no calibration is loaded and the stage is `CAL_NONE`,
then dispatch a debounced long-press event, if one fired, on the current
stage.  `longPress` is the `buttonLongPressEvent()` result and `median` the
`readTurbidityMedian()` result of the capture performed inside the pressed
branch. -/
def loopCalStep (st : SysState) (longPress : Bool) (median : ℕ) : SysState :=
  let st1 := if st.calLoaded = false ∧ st.calStage = CAL_NONE then
               { st with calStage := CAL_WAIT_CLEAR }
             else st
  if longPress then
    if st1.calStage = CAL_WAIT_CLEAR then
      { st1 with cal := { st1.cal with clearRaw := median },
                 calStage := CAL_WAIT_CLOUDY }
    else if st1.calStage = CAL_WAIT_CLOUDY then
      let r := saveCalibration st1.cal.clearRaw median
      { st1 with cal := r.1, calLoaded := r.2, eeprom := r.1,
                 calStage := CAL_DONE }
    else
      { st1 with calLoaded := false, calStage := CAL_WAIT_CLEAR }
  else st1

/-! ## Theorems -/

/-- C1 (code_bug evidence).  Invoked with a loaded calibration whose
`clearRaw` equals `cloudyRaw`, the main firmware's Index Mapper does NOT
return a fixed fallback index: it reaches the float division by
`clearV - cloudyV = 0` (embedded as `none`, since no defined integer result
exists), so the defensive guard the spec requires is absent.  The simpler
variant's mapper does implement the guard and returns the fixed fallback
`0` on the same degenerate calibration. -/
theorem computeTurbidityIndex_degenerate_unguarded :
    computeTurbidityIndex true ⟨CAL_MAGIC, 500, 500, 0⟩ 700 = none ∧
    Variant.computeTurbidityIndex 500 500 700 = 0 := by
  constructor
  · norm_num [computeTurbidityIndex]
  · norm_num [Variant.computeTurbidityIndex]

/-- C2 (counterexample).  The claim fails as stated: `save(500, 500)` —
both arguments equal — commits a record with `clearRaw = cloudyRaw`, which
violates the CalibrationRecord invariant, and still marks the calibration
as loaded. -/
theorem saveCalibration_equal_args_violates_invariant :
    (saveCalibration 500 500).2 = true ∧
    ¬ calInvariant (saveCalibration 500 500).1 := by
  refine ⟨rfl, ?_⟩
  intro h
  exact h.2.2 rfl

/-- C2 (amended).  For every pair of argument values, the record committed
by `saveCalibration` has the expected signature and a checksum equal to the
deterministic checksum function of the other fields, and the store marks
the calibration loaded; the full invariant — including
`clearRaw ≠ cloudyRaw` — holds exactly when the two arguments differ,
because `saveCalibration` itself never rejects equal arguments. -/
theorem saveCalibration_invariant :
    ∀ clearRaw cloudyRaw : ℕ,
      (saveCalibration clearRaw cloudyRaw).2 = true ∧
      (saveCalibration clearRaw cloudyRaw).1.magic = CAL_MAGIC ∧
      (saveCalibration clearRaw cloudyRaw).1.crc =
        checksum16 (saveCalibration clearRaw cloudyRaw).1 ∧
      (clearRaw ≠ cloudyRaw → calInvariant (saveCalibration clearRaw cloudyRaw).1) := by
  intro c y
  exact ⟨rfl, rfl, rfl, fun h => ⟨rfl, rfl, h⟩⟩

/-- C3.  `loadCalibration` reports the calibration as loaded if and only if
the signature equals the magic constant, the stored checksum equals the
recomputed one, and the two references differ; it is a total function (no
abort path), and it rejects a degenerate record with
`clearRaw = cloudyRaw` even when signature and checksum are valid. -/
theorem loadCalibration_iff :
    (∀ d : CalData,
        loadCalibration d = true ↔
          (d.magic = CAL_MAGIC ∧ d.crc = checksum16 d ∧
           d.clearRaw ≠ d.cloudyRaw)) ∧
    (CalData.magic ⟨CAL_MAGIC, 500, 500, checksum16 ⟨CAL_MAGIC, 500, 500, 0⟩⟩ = CAL_MAGIC ∧
     CalData.crc ⟨CAL_MAGIC, 500, 500, checksum16 ⟨CAL_MAGIC, 500, 500, 0⟩⟩ =
       checksum16 ⟨CAL_MAGIC, 500, 500, checksum16 ⟨CAL_MAGIC, 500, 500, 0⟩⟩ ∧
     loadCalibration ⟨CAL_MAGIC, 500, 500, checksum16 ⟨CAL_MAGIC, 500, 500, 0⟩⟩ = false) := by
  constructor
  · intro d
    unfold loadCalibration
    split_ifs with h1 h2 h3 <;> simp_all
  · exact ⟨rfl, rfl, rfl⟩

/-- C5.  The Smoother: `EMA_ALPHA` is fixed in `(0,1)`; one iteration of the
smoothing code starting from the `-1` sentinel leaves the state equal to the
incoming sample (the seed is immediately folded through the update, and
`α·s + (1−α)·s = s`); one iteration from any already-initialised (hence
nonnegative) state `e` yields exactly `α·s + (1−α)·e` — which is also the
single-step-jump equation `ema' = α·new + (1−α)·old`. -/
theorem emaStep_spec :
    (0 < EMA_ALPHA ∧ EMA_ALPHA < 1) ∧
    (∀ s : ℕ, emaStep (-1) s = s) ∧
    (∀ (e : ℚ) (s : ℕ), 0 ≤ e →
        emaStep e s = EMA_ALPHA * s + (1 - EMA_ALPHA) * e) := by
  refine ⟨⟨by norm_num [EMA_ALPHA], by norm_num [EMA_ALPHA]⟩, ?_, ?_⟩
  · intro s
    simp only [emaStep]
    norm_num
    ring
  · intro e s he
    simp only [emaStep, if_neg (not_lt.mpr he)]

/-- C6.  The calibrated Index Mapper, on the spec's reference points: with
`clearRaw = 900`, `cloudyRaw = 300` (direction: raw falls as turbidity
rises), raw 900 ↦ 0, raw 300 ↦ 100 and raw 600 ↦ 50; with the direction
reversed (`clearRaw = 300`, `cloudyRaw = 900`), raw 300 ↦ 0 and
raw 900 ↦ 100. -/
theorem computeTurbidityIndex_calibration_points :
    computeTurbidityIndex true ⟨CAL_MAGIC, 900, 300, 0⟩ 900 = some 0 ∧
    computeTurbidityIndex true ⟨CAL_MAGIC, 900, 300, 0⟩ 300 = some 100 ∧
    computeTurbidityIndex true ⟨CAL_MAGIC, 900, 300, 0⟩ 600 = some 50 ∧
    computeTurbidityIndex true ⟨CAL_MAGIC, 300, 900, 0⟩ 300 = some 0 ∧
    computeTurbidityIndex true ⟨CAL_MAGIC, 300, 900, 0⟩ 900 = some 100 := by
  refine ⟨?_, ?_, ?_, ?_, ?_⟩ <;> norm_num [computeTurbidityIndex, indexFromT]

/-- C8.  The Classifier is a pure total function on integer indices with the
two fixed thresholds 30 and 70: strictly below 30 is CLEAR, from 30 up to
strictly below 70 is MODERATE, from 70 upwards is TURBID; in particular
29 ↦ CLEAR, 30 ↦ MODERATE, 69 ↦ MODERATE, 70 ↦ TURBID. -/
theorem classifyStatus_thresholds :
    (∀ idx : ℤ,
        (idx < 30 → classifyStatus idx = "CLEAR") ∧
        (30 ≤ idx ∧ idx < 70 → classifyStatus idx = "MODERATE") ∧
        (70 ≤ idx → classifyStatus idx = "TURBID")) ∧
    classifyStatus 29 = "CLEAR" ∧ classifyStatus 30 = "MODERATE" ∧
    classifyStatus 69 = "MODERATE" ∧ classifyStatus 70 = "TURBID" := by
  refine ⟨?_, rfl, rfl, rfl, rfl⟩
  intro idx
  refine ⟨fun h => ?_, fun h => ?_, fun h => ?_⟩ <;>
    simp only [classifyStatus, THRESH_CLEAR, THRESH_MODERATE] <;>
    split_ifs <;> first | rfl | omega

/-- C10.  Every `digitalWrite` the LED-update routine performs, for every
index, clock reading and static state, targets the pin named `PIN_LED`;
that pin differs from `STATUS_LED_PIN` (pin 8), the pin `setup` configures
as an output — so classification results never change the configured
status-LED pin. -/
theorem updateLed_writes_only_PIN_LED :
    (∀ (idx : ℤ) (now : ℕ) (st : LedState),
        (((updateLed idx now st).2.map Prod.fst).all fun p => p == PIN_LED) = true) ∧
    PIN_LED ≠ STATUS_LED_PIN := by
  refine ⟨?_, by decide⟩
  intro idx now st
  simp only [updateLed]
  split_ifs <;> simp

theorem indexFromT_mem : ∀ t : ℚ, 0 ≤ indexFromT t ∧ indexFromT t ≤ 100 := by
  intro t
  simp only [indexFromT]
  split_ifs <;> omega

theorem indexFromT_of_nonpos {t : ℚ} (h : t ≤ 0) : indexFromT t = 0 := by
  have h1 : (if t < 0 then (0:ℚ) else t) = 0 := by
    split_ifs with h'
    · rfl
    · exact le_antisymm h (not_lt.mp h')
  simp only [indexFromT, h1]
  norm_num

theorem indexFromT_of_one_le {t : ℚ} (h : 1 ≤ t) : indexFromT t = 100 := by
  have h0 : ¬ t < 0 := not_lt.mpr (le_trans zero_le_one h)
  have h1 : (if (if t < 0 then (0:ℚ) else t) > 1 then (1:ℚ) else (if t < 0 then (0:ℚ) else t)) = 1 := by
    simp only [if_neg h0]
    split_ifs with h'
    · rfl
    · exact le_antisymm (not_lt.mp h') h
  simp only [indexFromT, if_neg h0] at *
  rw [h1]
  norm_num

/-- C7.  For every raw value the Index Mapper yields a defined integer in
`[0, 100]`, both without calibration and with a loaded calibration whose
references differ; and with calibration, a raw value outside
`[min(clearRaw, cloudyRaw), max(clearRaw, cloudyRaw)]` clamps to exactly 0
or exactly 100 — never negative, never above 100. -/
theorem computeTurbidityIndex_range :
    (∀ (cal : CalData) (raw : ℕ), ∃ i : ℤ,
        computeTurbidityIndex false cal raw = some i ∧ 0 ≤ i ∧ i ≤ 100) ∧
    (∀ (cal : CalData) (raw : ℕ), cal.clearRaw ≠ cal.cloudyRaw → ∃ i : ℤ,
        computeTurbidityIndex true cal raw = some i ∧ 0 ≤ i ∧ i ≤ 100 ∧
        ((raw < min cal.clearRaw cal.cloudyRaw ∨ max cal.clearRaw cal.cloudyRaw < raw) →
          (i = 0 ∨ i = 100))) := by
  constructor
  · intro cal raw
    simp only [computeTurbidityIndex, if_pos rfl]
    refine ⟨_, rfl, ?_, ?_⟩ <;> split_ifs <;> omega
  · intro cal raw hne
    rcases lt_trichotomy cal.clearRaw cal.cloudyRaw with hlt | heq | hgt
    · have hq : (cal.clearRaw : ℚ) < (cal.cloudyRaw : ℚ) := by exact_mod_cast hlt
      have hden : (0:ℚ) < (cal.cloudyRaw : ℚ) - (cal.clearRaw : ℚ) := by linarith
      have heval : computeTurbidityIndex true cal raw =
          some (indexFromT (((raw : ℚ) - (cal.clearRaw : ℚ)) /
            ((cal.cloudyRaw : ℚ) - (cal.clearRaw : ℚ)))) := by
        simp only [computeTurbidityIndex]
        rw [if_neg (by simp), if_pos hq]
      refine ⟨_, heval, (indexFromT_mem _).1, (indexFromT_mem _).2, ?_⟩
      rintro (hlow | hhigh)
      · left
        have hr : raw < cal.clearRaw := lt_of_lt_of_le hlow (min_le_left _ _)
        have hrq : (raw : ℚ) < (cal.clearRaw : ℚ) := by exact_mod_cast hr
        exact indexFromT_of_nonpos
          (le_of_lt (div_neg_of_neg_of_pos (by linarith) hden))
      · right
        have hr : cal.cloudyRaw < raw := lt_of_le_of_lt (le_max_right _ _) hhigh
        have hrq : (cal.cloudyRaw : ℚ) < (raw : ℚ) := by exact_mod_cast hr
        exact indexFromT_of_one_le
          (le_of_lt ((one_lt_div hden).mpr (by linarith)))
    · exact absurd heq hne
    · have hq : (cal.cloudyRaw : ℚ) < (cal.clearRaw : ℚ) := by exact_mod_cast hgt
      have hden : (0:ℚ) < (cal.clearRaw : ℚ) - (cal.cloudyRaw : ℚ) := by linarith
      have heval : computeTurbidityIndex true cal raw =
          some (indexFromT (((cal.clearRaw : ℚ) - (raw : ℚ)) /
            ((cal.clearRaw : ℚ) - (cal.cloudyRaw : ℚ)))) := by
        simp only [computeTurbidityIndex]
        rw [if_neg (by simp), if_neg (not_lt.mpr (le_of_lt hq)),
          if_neg (by intro h0; exact absurd (by linarith : (cal.clearRaw : ℚ) = (cal.cloudyRaw : ℚ)) (by exact_mod_cast hne))]
      refine ⟨_, heval, (indexFromT_mem _).1, (indexFromT_mem _).2, ?_⟩
      rintro (hlow | hhigh)
      · right
        have hr : raw < cal.cloudyRaw := lt_of_lt_of_le hlow (min_le_right _ _)
        have hrq : (raw : ℚ) < (cal.cloudyRaw : ℚ) := by exact_mod_cast hr
        exact indexFromT_of_one_le
          (le_of_lt ((one_lt_div hden).mpr (by linarith)))
      · left
        have hr : cal.clearRaw < raw := lt_of_le_of_lt (le_max_left _ _) hhigh
        have hrq : (cal.clearRaw : ℚ) < (raw : ℚ) := by exact_mod_cast hr
        exact indexFromT_of_nonpos
          (le_of_lt (div_neg_of_neg_of_pos (by linarith) hden))

/-- C9.  From any state with no loaded (or an invalid, hence unloaded)
calibration and stage `CAL_NONE`, the loop forces the stage to
`CAL_WAIT_CLEAR` (first conjunct: an iteration with no press already shows
the forcing); exactly two successive debounced long-press events then drive
the stage `CAL_WAIT_CLEAR → CAL_WAIT_CLOUDY → CAL_DONE`, and the record
stored in EEPROM at the end has `clearRaw` equal to the median sampled at
the first press and `cloudyRaw` equal to the median sampled at the second,
in capture order, with the calibration marked loaded. -/
theorem calibrationFlow_two_presses (st : SysState) (s1 s2 : ℕ)
    (h1 : st.calLoaded = false) (h2 : st.calStage = CAL_NONE) :
    (loopCalStep st false 0).calStage = CAL_WAIT_CLEAR ∧
    (loopCalStep st true s1).calStage = CAL_WAIT_CLOUDY ∧
    (loopCalStep (loopCalStep st true s1) true s2).calStage = CAL_DONE ∧
    (loopCalStep (loopCalStep st true s1) true s2).eeprom.clearRaw = s1 ∧
    (loopCalStep (loopCalStep st true s1) true s2).eeprom.cloudyRaw = s2 ∧
    (loopCalStep (loopCalStep st true s1) true s2).calLoaded = true := by
  obtain ⟨cal, loaded, stage, ee⟩ := st
  simp only at h1 h2
  subst h1 h2
  simp [loopCalStep, saveCalibration]

theorem insertS_perm (a : ℕ) (l : List ℕ) : (insertS a l).Perm (a :: l) := by
  induction l with
  | nil => exact List.Perm.refl _
  | cons b l ih =>
    simp only [insertS]
    split_ifs with h
    · exact List.Perm.refl _
    · exact (List.Perm.cons b ih).trans (List.Perm.swap a b l)

theorem insertS_sorted (a : ℕ) {l : List ℕ} (h : l.Sorted (· ≤ ·)) :
    (insertS a l).Sorted (· ≤ ·) := by
  induction l with
  | nil => simp [insertS]
  | cons b l ih =>
    rw [List.sorted_cons] at h
    simp only [insertS]
    split_ifs with hba
    · rw [List.sorted_cons]
      refine ⟨?_, List.sorted_cons.mpr h⟩
      intro x hx
      rcases List.mem_cons.mp hx with rfl | hx
      · exact le_of_lt hba
      · exact le_trans (le_of_lt hba) (h.1 x hx)
    · rw [List.sorted_cons]
      refine ⟨?_, ih h.2⟩
      intro x hx
      rcases List.mem_cons.mp ((insertS_perm a l).mem_iff.mp hx) with rfl | hx2
      · exact not_lt.mp hba
      · exact h.1 x hx2

theorem foldl_insertS_perm (l : List ℕ) :
    ∀ acc : List ℕ, (l.foldl (fun acc x => insertS x acc) acc).Perm (acc ++ l) := by
  induction l with
  | nil => intro acc; simp
  | cons x l ih =>
    intro acc
    simp only [List.foldl_cons]
    exact (ih (insertS x acc)).trans
      (((insertS_perm x acc).append_right l).trans List.perm_middle.symm)

theorem foldl_insertS_sorted (l : List ℕ) :
    ∀ acc : List ℕ, acc.Sorted (· ≤ ·) →
      (l.foldl (fun acc x => insertS x acc) acc).Sorted (· ≤ ·) := by
  induction l with
  | nil => exact fun acc h => h
  | cons x l ih => exact fun acc h => ih _ (insertS_sorted x h)

theorem insertionSort_perm (l : List ℕ) : (insertionSort l).Perm l := by
  simpa using foldl_insertS_perm l []

theorem insertionSort_sorted (l : List ℕ) : (insertionSort l).Sorted (· ≤ ·) :=
  foldl_insertS_sorted l [] List.sorted_nil

theorem insertionSort_eq_refSort (l : List ℕ) :
    insertionSort l = List.insertionSort (· ≤ ·) l :=
  List.eq_of_perm_of_sorted
    ((insertionSort_perm l).trans (List.perm_insertionSort (· ≤ ·) l).symm)
    (insertionSort_sorted l) (List.sorted_insertionSort _ l)

theorem sorted_middle_counts {s : List ℕ} (hsort : s.Sorted (· ≤ ·))
    {k : ℕ} (hlen : s.length = 2 * k + 1) :
    k + 1 ≤ s.countP (fun x => decide (x ≤ s.getD k 0)) ∧
    k + 1 ≤ s.countP (fun x => decide (s.getD k 0 ≤ x)) := by
  have hklt : k < s.length := by omega
  rw [List.getD_eq_getElem s 0 hklt]
  constructor
  · have hall : (s.take (k + 1)).countP (fun x => decide (x ≤ s[k])) =
        (s.take (k + 1)).length := by
      rw [List.countP_eq_length]
      intro a ha
      obtain ⟨i, hi, hia⟩ := List.mem_take_iff_getElem.mp ha
      have hi2 : i < s.length := (lt_min_iff.mp hi).2
      have hik : i ≤ k := by
        have := (lt_min_iff.mp hi).1
        omega
      have hile : s.get ⟨i, hi2⟩ ≤ s.get ⟨k, hklt⟩ :=
        @List.Sorted.rel_get_of_le ℕ (· ≤ ·) _ s hsort ⟨i, hi2⟩ ⟨k, hklt⟩ hik
      rw [← hia]
      exact decide_eq_true hile
    have hsplit : s.countP (fun x => decide (x ≤ s[k])) =
        (s.take (k + 1)).countP (fun x => decide (x ≤ s[k])) +
        (s.drop (k + 1)).countP (fun x => decide (x ≤ s[k])) := by
      rw [← List.countP_append, List.take_append_drop]
    have hlt : (s.take (k + 1)).length = k + 1 := by
      rw [List.length_take]
      omega
    omega
  · have hmemtake : s[k] ∈ s.take (k + 1) :=
      List.mem_take_iff_getElem.mpr ⟨k, lt_min (by omega) hklt, rfl⟩
    have hall : (s.drop k).countP (fun x => decide (s[k] ≤ x)) =
        (s.drop k).length := by
      rw [List.countP_eq_length]
      intro a ha
      rw [List.drop_eq_getElem_cons hklt] at ha
      rcases List.mem_cons.mp ha with rfl | ha2
      · exact decide_eq_true le_rfl
      · exact decide_eq_true
          (@List.Sorted.rel_of_mem_take_of_mem_drop ℕ (· ≤ ·) s hsort
            (k + 1) s[k] a hmemtake ha2)
    have hsplit : s.countP (fun x => decide (s[k] ≤ x)) =
        (s.take k).countP (fun x => decide (s[k] ≤ x)) +
        (s.drop k).countP (fun x => decide (s[k] ≤ x)) := by
      rw [← List.countP_append, List.take_append_drop]
    have hlt : (s.drop k).length = k + 1 := by
      rw [List.length_drop]
      omega
    omega

/-- C4.  For every burst of K raw samples with K odd (K = 31 in the
firmware), the Sampler's sort-and-take-middle result equals the true median
of the sample multiset: it coincides with the middle of a reference sort
(duplicates included, since the statement is over arbitrary lists), and at
least ⌈K/2⌉ samples lie at or below it and at least ⌈K/2⌉ at or above
it. -/
theorem readTurbidityMedian_is_trueMedian (samples : List ℕ)
    (hodd : Odd samples.length) :
    readTurbidityMedian samples = medianSpec samples ∧
    (samples.length + 1) / 2 ≤
      samples.countP (fun x => decide (x ≤ readTurbidityMedian samples)) ∧
    (samples.length + 1) / 2 ≤
      samples.countP (fun x => decide (readTurbidityMedian samples ≤ x)) := by
  obtain ⟨k, hk⟩ := hodd
  have heq : readTurbidityMedian samples = medianSpec samples := by
    rw [readTurbidityMedian, medianSpec, insertionSort_eq_refSort]
  have hperm : (insertionSort samples).Perm samples := insertionSort_perm samples
  have hlen : (insertionSort samples).length = 2 * k + 1 := by
    rw [hperm.length_eq]
    omega
  have hdiv : samples.length / 2 = k := by omega
  have hm : readTurbidityMedian samples =
      (insertionSort samples).getD k 0 := by
    rw [readTurbidityMedian, hdiv]
  have hc := sorted_middle_counts (insertionSort_sorted samples) hlen
  refine ⟨heq, ?_, ?_⟩
  · rw [hm, ← hperm.countP_eq]
    have := hc.1
    omega
  · rw [hm, ← hperm.countP_eq]
    have := hc.2
    omega

/-- Witness for C4 at the concrete duplicate-heavy burst `[5, 1, 5]`. -/
theorem readTurbidityMedian_is_trueMedian_witness :
    readTurbidityMedian [5, 1, 5] = medianSpec [5, 1, 5] :=
  (readTurbidityMedian_is_trueMedian [5, 1, 5] ⟨1, rfl⟩).1

/-- Witness for C9 at a concrete fresh state and the samples 111, 222. -/
theorem calibrationFlow_two_presses_witness :
    (loopCalStep (loopCalStep ⟨⟨0, 0, 0, 0⟩, false, CAL_NONE, ⟨0, 0, 0, 0⟩⟩
        true 111) true 222).eeprom.clearRaw = 111 ∧
    (loopCalStep (loopCalStep ⟨⟨0, 0, 0, 0⟩, false, CAL_NONE, ⟨0, 0, 0, 0⟩⟩
        true 111) true 222).eeprom.cloudyRaw = 222 :=
  ⟨(calibrationFlow_two_presses ⟨⟨0, 0, 0, 0⟩, false, CAL_NONE, ⟨0, 0, 0, 0⟩⟩
      111 222 rfl rfl).2.2.2.1,
   (calibrationFlow_two_presses ⟨⟨0, 0, 0, 0⟩, false, CAL_NONE, ⟨0, 0, 0, 0⟩⟩
      111 222 rfl rfl).2.2.2.2.1⟩
